import Mathlib

/-!
Shallow embedding of the tracee event-processing pipeline
(`pkg/ebpf/events_pipeline.go`) and verification of the specification's
claims about it.

All 64-bit machine integers are modelled as `Nat` with explicit `% 2^64`
where overflow or bit-width matters.  Bitmaps (`MatchedScopes`, the emit
mask, the container-filter mask) are `Nat`s whose meaningful bits live
below 64.  External collaborators of this file's code (the filter
package, the events registry, the container registry, argument parsing)
are modelled from the specification's description of their contract, as
abstract function fields or small definitions marked
`Modelled from the spec`.
-/

namespace Tracee

/-- 2^64, the modulus of the Go `uint64` type. -/
def U64 : Nat := 2 ^ 64

/-- Modelled from the spec: bit-test on a scope bitmap
(`utils.HasBit`, "operations are bit-clear and bit-test"). -/
def hasBit (n offset : Nat) : Bool := n.testBit offset

/-- Modelled from the spec: clear one bit of a 64-bit scope bitmap
(`utils.ClearBit`, Go `*n &= ^(1 << offset)` on `uint64`). -/
def clearBit (n offset : Nat) : Nat :=
  n &&& ((U64 - 1) ^^^ ((1 <<< offset) % U64))

/-- Modelled from the spec: clear a whole mask of bits of a 64-bit scope
bitmap (`utils.ClearBits`, Go `*n &= ^mask` on `uint64`). -/
def clearBits (n mask : Nat) : Nat :=
  n &&& ((U64 - 1) ^^^ (mask % U64))

/-- Modelled from the spec: set one bit of a 64-bit scope bitmap
(`utils.SetBit`, Go `*n |= (1 << offset)` on `uint64`). -/
def setBit (n offset : Nat) : Nat :=
  n ||| ((1 <<< offset) % U64)

/-- Go `uint64` addition (used for the boot-time shift of timestamps). -/
def u64add (a b : Nat) : Nat := (a + b) % U64

/-- Go `uint64` subtraction (used for the start-time rebase of
timestamps): wraps modulo 2^64. -/
def u64sub (a b : Nat) : Nat := (a + (U64 - b % U64)) % U64

/-- Go cast `int(x)` / `int64(x)` of a `uint64` value: reinterpret the
low 64 bits as a signed two's-complement integer. -/
def toInt64 (n : Nat) : Int :=
  if n % U64 < 2 ^ 63 then ((n % U64 : Nat) : Int) else ((n % U64 : Nat) : Int) - (U64 : Int)

/-- Go cast `uint32(x)` of an `int` value (two's complement truncation),
used when handing `event.UserID` / `event.HostProcessID` to the min/max
filters. -/
def u32ofInt (i : Int) : Nat := (i % (2 ^ 32 : Nat)).toNat

/-- One decoded argument of an event: `trace.Argument` = `ArgMeta`
(name, type) plus a value.  The value is opaque to the pipeline; it is
modelled as a `Nat`. -/
structure Argument where
  argName : String
  argType : String
  value : Nat
deriving DecidableEq, Repr

/-- `trace.ContextFlags`, decoded from the context's flags word. -/
structure ContextFlags where
  containerStarted : Bool
  isCompat : Bool
deriving DecidableEq, Repr

/-- `trace.Event`: the decoded event value flowing through all pipeline
stages, with the fields of the Go struct built by `decodeEvents`. -/
structure Event where
  timestamp : Int
  threadStartTime : Int
  processorID : Nat
  processID : Nat
  threadID : Nat
  parentProcessID : Nat
  hostProcessID : Int
  hostThreadID : Nat
  hostParentProcessID : Nat
  userID : Int
  mountNS : Nat
  pidNS : Nat
  processName : String
  hostName : String
  cgroupID : Nat
  containerID : String
  containerImage : String
  containerName : String
  podName : String
  podNamespace : String
  podUID : String
  podSandbox : Bool
  eventID : Nat
  eventName : String
  matchedScopes : Nat
  argsNum : Nat
  returnValue : Int
  args : List Argument
  stackAddresses : List Nat
  contextFlags : ContextFlags
deriving DecidableEq, Repr

/-- Modelled from the spec: a UID/PID min/max filter of a scope — an
enabled flag and a `(min, max)` range; `InMinMaxRange` holds when
`min < v < max`, matching the spec's rationale example
(`pid>100`, `pid<1257738` ⇒ pid 150 matches). -/
structure MinMaxFilter where
  enabled : Bool
  min : Nat
  max : Nat
deriving DecidableEq, Repr

/-- Modelled from the spec: membership in the open range of a min/max
filter. -/
def MinMaxFilter.inMinMaxRange (f : MinMaxFilter) (v : Nat) : Bool :=
  decide (f.min < v) && decide (v < f.max)

/-- A configured filter scope (spec §3 "Scope"): a numbered bundle of a
context filter, a per-event-id return-value filter, a per-event-id
argument filter, UID and PID min/max filters, and a container-filter
flag.  The predicate internals live outside this file's source and are
abstract function fields. -/
structure FilterScope where
  id : Nat
  contextFilter : Event → Bool
  retFilter : Nat → Int → Bool
  argFilter : Nat → List Argument → Bool
  uidFilter : MinMaxFilter
  pidFilter : MinMaxFilter
  containerFilterEnabled : Bool

/-- The loop body of `computeScopes`: given the original (kernel
reported) bitmap `orig` and the accumulator `matched`, handle one
configured scope, clearing its bit on the first rejecting filter. -/
def scopeStep (event : Event) (orig : Nat) (matched : Nat) (fs : FilterScope) : Nat :=
  let bitOffset := fs.id
  if !hasBit orig bitOffset then matched
  else if !fs.contextFilter event then clearBit matched bitOffset
  else if !fs.retFilter event.eventID event.returnValue then clearBit matched bitOffset
  else if !fs.argFilter event.eventID event.args then clearBit matched bitOffset
  else if fs.uidFilter.enabled && !fs.uidFilter.inMinMaxRange (u32ofInt event.userID) then
    clearBit matched bitOffset
  else if fs.pidFilter.enabled && !fs.pidFilter.inMinMaxRange (u32ofInt event.hostProcessID) then
    clearBit matched bitOffset
  else matched

/-- `computeScopes`: starting from the event's kernel-supplied
`MatchedScopes`, iterate over the configured scopes and clear the bit of
every scope whose filters reject the event; return the resulting
bitmap. -/
def computeScopes (scopes : List FilterScope) (event : Event) : Nat :=
  scopes.foldl (scopeStep event event.matchedScopes) event.matchedScopes

/-- `shouldProcessEvent`: replace the event's `MatchedScopes` with
`computeScopes` of the event and keep the event iff the result is
non-zero.  The Go function mutates the event in place and returns a
`bool`; here it returns the updated event together with that `bool`. -/
def shouldProcessEvent (scopes : List FilterScope) (event : Event) : Event × Bool :=
  let e := { event with matchedScopes := computeScopes scopes event }
  (e, decide (e.matchedScopes ≠ 0))

/-- The disjunction of the five per-scope rejection conditions of
`computeScopes` (context filter, return-value filter, argument filter,
enabled UID range, enabled PID range); the scope's bit is cleared
exactly when this predicate holds. -/
def scopeRejects (fs : FilterScope) (event : Event) : Bool :=
  !fs.contextFilter event
  || !fs.retFilter event.eventID event.returnValue
  || !fs.argFilter event.eventID event.args
  || (fs.uidFilter.enabled && !fs.uidFilter.inMinMaxRange (u32ofInt event.userID))
  || (fs.pidFilter.enabled && !fs.pidFilter.inMinMaxRange (u32ofInt event.hostProcessID))

/-- Modelled from the spec: the two cgroup lifecycle event ids
(`events.CgroupMkdir`, `events.CgroupRmdir`).  Only their identity is
used by the pipeline; the concrete numeric values are immaterial. -/
def cgroupMkdirID : Nat := 306

/-- Modelled from the spec: `events.CgroupRmdir`; see `cgroupMkdirID`. -/
def cgroupRmdirID : Nat := 307

/-- Modelled from the spec: `events.SymbolsLoaded`, one of the three
event ids structurally exempt from the deriver's re-filtering.  Only
identity is used; the concrete value is immaterial. -/
def symbolsLoadedID : Nat := 1000

/-- Modelled from the spec: `events.SharedObjectLoaded`; see
`symbolsLoadedID`. -/
def sharedObjectLoadedID : Nat := 1001

/-- Modelled from the spec: `events.PrintMemDump`; see
`symbolsLoadedID`. -/
def printMemDumpID : Nat := 1002

/-- Container identity returned by the container registry
(`t.containers.GetCgroupInfo(cgroupID).Container`); all fields may be
empty when the cgroup is not yet known. -/
structure ContainerInfo where
  containerId : String
  image : String
  name : String
  podName : String
  podNamespace : String
  podUID : String
  podSandbox : Bool

/-- The slice of the `Tracee` object and its configuration that the
pipeline stages in this file read.  Function-typed fields stand for the
out-of-scope collaborators (registry lookups, argument parsing). -/
structure Config where
  filterScopes : List FilterScope
  relativeTime : Bool
  startTime : Nat
  bootTime : Nat
  stackAddrs : Bool
  stackTable : Nat → Option (List Nat)
  emit : Nat → Nat
  engineEnabled : Bool
  parseArgsFlag : Bool
  parseArgsFDsFlag : Bool
  parseArgsFn : Nat → List Argument → List Argument × Bool
  parseArgsFDsFn : Nat → List Argument → List Argument × Bool
  isDerivationBase : Nat → Bool
  definitions : Nat → Option String
  cgroupInfo : Nat → ContainerInfo

/-- Modelled from the spec: `FilterScopes.ContainerFilterEnabled()` —
the 64-bit mask holding the bit of every configured scope whose
container filter is enabled (spec S2: scope 7 has a container filter ⇒
bit 7 is in the mask). -/
def containerFilterMask (scopes : List FilterScope) : Nat :=
  scopes.foldl (fun m fs => if fs.containerFilterEnabled then setBit m fs.id else m) 0

/-- The per-event body of `processEvents` after the event-specific side
effects succeeded: the false-positive container-filter correction.
`none` means the event is dropped. -/
def processEventStage (cfg : Config) (event : Event) : Option Event :=
  let scopesWithContainerFilter := containerFilterMask cfg.filterScopes
  if 0 < scopesWithContainerFilter ∧ event.containerID = "" then
    if event.eventID ≠ cgroupMkdirID ∧ event.eventID ≠ cgroupRmdirID then
      let e := { event with matchedScopes := clearBits event.matchedScopes scopesWithContainerFilter }
      if e.matchedScopes = 0 then none else some e
    else some event
  else some event

/-- The per-derivative body of `deriveEvents`: the three exempt event
ids are emitted unchanged; every other derivative is re-filtered by
`shouldProcessEvent` and, when rejected, dropped with `EventsFiltered`
incremented.  Result: the emitted derivative (if any) and the
`EventsFiltered` increment. -/
def processDerivative (cfg : Config) (derivative : Event) : Option Event × Nat :=
  if derivative.eventID = symbolsLoadedID ∨ derivative.eventID = sharedObjectLoadedID
      ∨ derivative.eventID = printMemDumpID then
    (some derivative, 0)
  else
    let r := shouldProcessEvent cfg.filterScopes derivative
    if r.2 then (some r.1, 0) else (none, 1)

/-- `parseArguments`: when argument parsing is configured, rewrite the
event's arguments via the external `events.ParseArgs` and (optionally)
`events.ParseArgsFDs`; the `Bool` is `false` when parsing returned an
error (the spec models the parsers as rewriting only `Args`). -/
def parseArguments (cfg : Config) (e : Event) : Event × Bool :=
  if cfg.parseArgsFlag then
    let r := cfg.parseArgsFn e.eventID e.args
    if !r.2 then ({ e with args := r.1 }, false)
    else if cfg.parseArgsFDsFlag then
      let r2 := cfg.parseArgsFDsFn e.eventID r.1
      ({ e with args := r2.1 }, r2.2)
    else ({ e with args := r.1 }, true)
  else (e, true)

/-- Result of the sink's per-event body: the event sent to the output
channel (if any), whether `parseArguments` was invoked, and the
increments of `EventCount` and `ErrorCount`. -/
structure SinkResult where
  sent : Option Event
  parseCalled : Bool
  eventCountDelta : Nat
  errorCountDelta : Nat
deriving Repr

/-- The per-event body of `sinkEvents`: mask `MatchedScopes` by the
per-event-id emit mask, drop on zero, parse arguments when the rule
engine is disabled (a parse error is counted but the event is still
sent), send and count. -/
def sinkOne (cfg : Config) (event : Event) : SinkResult :=
  let e := { event with matchedScopes := event.matchedScopes &&& cfg.emit event.eventID }
  if e.matchedScopes = 0 then ⟨none, false, 0, 0⟩
  else if cfg.engineEnabled then ⟨some e, false, 1, 0⟩
  else
    let r := parseArguments cfg e
    ⟨some r.1, true, 1, if r.2 then 0 else 1⟩

/-- The timestamp-normalization branch of `decodeEvents`: in relative
mode subtract the process start epoch from both `Ts` and `StartTime`;
otherwise add the boot-time offset to both.  `uint64` arithmetic. -/
def normalizeTimestamps (relativeTime : Bool) (startTime bootTime : Nat) (ts startTs : Nat) :
    Nat × Nat :=
  if relativeTime then (u64sub ts startTime, u64sub startTs startTime)
  else (u64add ts bootTime, u64add startTs bootTime)

/-- `parseContextFlags`: decode the flags word (bit 0 = container
started, bit 1 = is-compat). -/
def parseContextFlags (flags : Nat) : ContextFlags :=
  { containerStarted := decide (flags &&& 1 ≠ 0), isCompat := decide (flags &&& 2 ≠ 0) }

/-- Max depth of each stack trace to track (`maxStackDepth`, matching
MAX_STACK_DEPTH of the eBPF code). -/
def maxStackDepth : Nat := 20

/-- `binary.LittleEndian.Uint64` over a byte list. -/
def le64 (bytes : List Nat) : Nat :=
  bytes.foldr (fun b acc => b + 256 * acc) 0

/-- The loop of `getStackAddresses` over the raw stack bytes, carrying
`stackCounter`.  `none` models a Go runtime panic: the unguarded write
`StackAddresses[stackCounter] = 0` when the counter reaches 20 while
bytes remain, or the slice `stackBytes[i:i+8]` when fewer than 8 bytes
remain. -/
def readStackLoop : List Nat → Nat → Option (List Nat)
  | [], _ => some []
  | b0 :: rest, stackCounter =>
    if maxStackDepth ≤ stackCounter then none
    else
      match rest with
      | b1 :: b2 :: b3 :: b4 :: b5 :: b6 :: b7 :: tail =>
        let stackAddr := le64 [b0, b1, b2, b3, b4, b5, b6, b7]
        if stackAddr = 0 then some []
        else
          match readStackLoop tail (stackCounter + 1) with
          | none => none
          | some l => some (stackAddr :: l)
      | _ => none

/-- `getStackAddresses`: look the stack id up in the stack table (a
missing entry yields an empty address list, not an error), then read
native-width little-endian words, stopping at the first zero.  `none`
models a runtime panic of the loop. -/
def getStackAddresses (table : Nat → Option (List Nat)) (stackID : Nat) : Option (List Nat) :=
  match table stackID with
  | none => some []
  | some stackBytes => readStackLoop stackBytes 0

/-- The fixed-layout record header (`bufferdecoder.Context`) as consumed
by `decodeEvents` after binary decoding. -/
structure BinContext where
  ts : Nat
  startTime : Nat
  cgroupID : Nat
  pid : Nat
  tid : Nat
  ppid : Nat
  hostPid : Nat
  hostTid : Nat
  hostPpid : Nat
  uid : Nat
  mntID : Nat
  pidID : Nat
  comm : String
  utsName : String
  flags : Nat
  eventID : Nat
  matchedScopes : Nat
  argnum : Nat
  retval : Int
  stackID : Nat
  processorId : Nat

/-- The argument loop of `decodeEvents`: read `argnum` arguments in
order; a failing read (`readArg i = none`) is counted as an error and
skipped, a succeeding one is appended.  Returns the collected arguments
and the number of failures. -/
def decodeArgsFrom : Nat → Nat → (Nat → Option Argument) → List Argument × Nat
  | _, 0, _ => ([], 0)
  | i, n + 1, readArg =>
    let rest := decodeArgsFrom (i + 1) n readArg
    match readArg i with
    | none => (rest.1, rest.2 + 1)
    | some a => (a :: rest.1, rest.2)

/-- The argument loop of `decodeEvents` started at argument 0. -/
def decodeArgs (argnum : Nat) (readArg : Nat → Option Argument) : List Argument × Nat :=
  decodeArgsFrom 0 argnum readArg

/-- The per-record body of `decodeEvents` for a record whose context
header decoded successfully.  `readArg` models the successive
`bufferdecoder.ReadArgFromBuff` calls.  The outer `Option` is `none`
only when attaching stack addresses panics; otherwise the result is
(emitted event if any, `ErrorCount` increment, `EventsFiltered`
increment). -/
def decodeRecord (cfg : Config) (ctx : BinContext) (readArg : Nat → Option Argument) :
    Option (Option Event × Nat × Nat) :=
  match cfg.definitions ctx.eventID with
  | none => some (none, 1, 0)
  | some defName =>
    let p := decodeArgs ctx.argnum readArg
    match (if cfg.stackAddrs then getStackAddresses cfg.stackTable ctx.stackID else some []) with
    | none => none
    | some stackAddresses =>
      let tsPair := normalizeTimestamps cfg.relativeTime cfg.startTime cfg.bootTime ctx.ts ctx.startTime
      let cinfo := cfg.cgroupInfo ctx.cgroupID
      let evt : Event :=
        { timestamp := toInt64 tsPair.1
          threadStartTime := toInt64 tsPair.2
          processorID := ctx.processorId
          processID := ctx.pid
          threadID := ctx.tid
          parentProcessID := ctx.ppid
          hostProcessID := (ctx.hostPid : Int)
          hostThreadID := ctx.hostTid
          hostParentProcessID := ctx.hostPpid
          userID := (ctx.uid : Int)
          mountNS := ctx.mntID
          pidNS := ctx.pidID
          processName := ctx.comm
          hostName := ctx.utsName
          cgroupID := ctx.cgroupID
          containerID := cinfo.containerId
          containerImage := cinfo.image
          containerName := cinfo.name
          podName := cinfo.podName
          podNamespace := cinfo.podNamespace
          podUID := cinfo.podUID
          podSandbox := cinfo.podSandbox
          eventID := ctx.eventID
          eventName := defName
          matchedScopes := ctx.matchedScopes
          argsNum := ctx.argnum
          returnValue := ctx.retval
          args := p.1
          stackAddresses := stackAddresses
          contextFlags := parseContextFlags ctx.flags }
      if cfg.isDerivationBase ctx.eventID then some (some evt, p.2, 0)
      else
        let r := shouldProcessEvent cfg.filterScopes evt
        if r.2 then some (some r.1, p.2, 0) else some (none, p.2, 1)

/-! ## Bit-level lemmas about the scope-bitmap operations -/

theorem shiftOne_mod (off : Nat) :
    (1 <<< off) % U64 = if off < 64 then 2 ^ off else 0 := by
  rw [Nat.one_shiftLeft, U64]
  split
  · exact Nat.mod_eq_of_lt (Nat.pow_lt_pow_right (by norm_num) (by assumption))
  · exact Nat.eq_zero_of_dvd_of_lt (Nat.dvd_mod_iff (Nat.pow_dvd_pow 2 (by omega)) |>.mpr
      (Nat.pow_dvd_pow 2 (by omega))) (Nat.mod_lt _ (by positivity))

theorem clearBit_testBit (n off b : Nat) (hb : b < 64) :
    (clearBit n off).testBit b = (n.testBit b && !(decide (off = b))) := by
  rw [clearBit, shiftOne_mod, Nat.testBit_and, Nat.testBit_xor]
  simp only [U64]
  rcases Nat.lt_or_ge off 64 with hoff | hoff
  · rw [if_pos hoff, Nat.testBit_two_pow_sub_one, Nat.testBit_two_pow]
    simp [hb]
  · rw [if_neg (by omega), Nat.testBit_two_pow_sub_one]
    have hd : decide (off = b) = false := by simp; omega
    simp [hb, hd]

theorem clearBit_testBit_self (n off : Nat) : (clearBit n off).testBit off = false := by
  rcases Nat.lt_or_ge off 64 with hoff | hoff
  · rw [clearBit_testBit n off off hoff]; simp
  · rw [clearBit, shiftOne_mod, if_neg (by omega), Nat.testBit_and, Nat.testBit_xor]
    simp only [U64]
    rw [Nat.testBit_two_pow_sub_one]
    simp
    omega

theorem clearBit_subset (n off b : Nat) (h : (clearBit n off).testBit b = true) :
    n.testBit b = true := by
  rw [clearBit, Nat.testBit_and, Bool.and_eq_true] at h
  exact h.1

theorem clearBits_testBit (n mask b : Nat) (hb : b < 64) :
    (clearBits n mask).testBit b = (n.testBit b && !mask.testBit b) := by
  rw [clearBits, Nat.testBit_and, Nat.testBit_xor]
  simp only [U64]
  rw [Nat.testBit_mod_two_pow, Nat.testBit_two_pow_sub_one]
  simp [hb]

theorem clearBits_subset (n mask b : Nat) (h : (clearBits n mask).testBit b = true) :
    n.testBit b = true := by
  rw [clearBits, Nat.testBit_and, Bool.and_eq_true] at h
  exact h.1

theorem and_subset (n m b : Nat) (h : (n &&& m).testBit b = true) : n.testBit b = true := by
  rw [Nat.testBit_and, Bool.and_eq_true] at h
  exact h.1

/-! ## The scope-refinement loop -/

theorem scopeStep_eq (e : Event) (orig m : Nat) (fs : FilterScope) :
    scopeStep e orig m fs =
      if hasBit orig fs.id && scopeRejects fs e then clearBit m fs.id else m := by
  simp only [scopeStep, scopeRejects]
  rcases Bool.eq_false_or_eq_true (hasBit orig fs.id) with h1 | h1 <;>
    rcases Bool.eq_false_or_eq_true (fs.contextFilter e) with h2 | h2 <;>
    rcases Bool.eq_false_or_eq_true (fs.retFilter e.eventID e.returnValue) with h3 | h3 <;>
    rcases Bool.eq_false_or_eq_true (fs.argFilter e.eventID e.args) with h4 | h4 <;>
    rcases Bool.eq_false_or_eq_true fs.uidFilter.enabled with h5 | h5 <;>
    rcases Bool.eq_false_or_eq_true (fs.uidFilter.inMinMaxRange (u32ofInt e.userID)) with h6 | h6 <;>
    rcases Bool.eq_false_or_eq_true fs.pidFilter.enabled with h7 | h7 <;>
    rcases Bool.eq_false_or_eq_true (fs.pidFilter.inMinMaxRange (u32ofInt e.hostProcessID)) with h8 | h8 <;>
    simp [h1, h2, h3, h4, h5, h6, h7, h8]

theorem foldl_scopeStep_subset (e : Event) (orig : Nat) :
    ∀ (scopes : List FilterScope) (m b : Nat),
      (scopes.foldl (scopeStep e orig) m).testBit b = true → m.testBit b = true
  | [], _, _, h => h
  | fs :: l, m, b, h => by
    have h2 := foldl_scopeStep_subset e orig l (scopeStep e orig m fs) b h
    rw [scopeStep_eq] at h2
    split at h2
    · exact clearBit_subset m fs.id b h2
    · exact h2

theorem foldl_scopeStep_testBit (e : Event) (orig b : Nat) (hb : b < 64) :
    ∀ (scopes : List FilterScope) (m : Nat), (∀ fs ∈ scopes, fs.id < 64) →
      (scopes.foldl (scopeStep e orig) m).testBit b =
        (m.testBit b &&
          !(scopes.any fun fs => (hasBit orig fs.id && scopeRejects fs e) && fs.id == b))
  | [], m, _ => by simp
  | fs :: l, m, hids => by
    rw [List.foldl_cons,
      foldl_scopeStep_testBit e orig b hb l _ (fun g hg => hids g (List.mem_cons_of_mem _ hg)),
      scopeStep_eq]
    cases hcond : (hasBit orig fs.id && scopeRejects fs e)
    · simp [hcond]
    · rw [if_pos rfl, clearBit_testBit m fs.id b hb]
      simp only [List.any_cons, hcond, Bool.true_and]
      by_cases hb2 : fs.id = b
      · simp [hb2, Bool.and_assoc]
      · have hbeq : (fs.id == b) = false := beq_eq_false_iff_ne.mpr hb2
        simp [hb2, hbeq, Bool.and_assoc]

theorem foldl_scopeStep_clears (e : Event) (orig : Nat) :
    ∀ (scopes : List FilterScope) (m : Nat) (fs : FilterScope), fs ∈ scopes →
      hasBit orig fs.id = true → scopeRejects fs e = true →
      (scopes.foldl (scopeStep e orig) m).testBit fs.id = false
  | [], _, _, hmem, _, _ => absurd hmem (List.not_mem_nil _)
  | g :: l, m, fs, hmem, hbit, hrej => by
    rw [List.foldl_cons]
    rcases List.mem_cons.mp hmem with heq | hmem2
    · subst heq
      have hstep : (scopeStep e orig m fs).testBit fs.id = false := by
        rw [scopeStep_eq, if_pos (by rw [hbit, hrej]; rfl)]
        exact clearBit_testBit_self m fs.id
      cases hfin : (l.foldl (scopeStep e orig) (scopeStep e orig m fs)).testBit fs.id
      · rfl
      · exact absurd (foldl_scopeStep_subset e orig l _ _ hfin) (by rw [hstep]; simp)
    · exact foldl_scopeStep_clears e orig l _ fs hmem2 hbit hrej

theorem scopeStep_noop (e : Event) (orig : Nat) (fs : FilterScope)
    (h : hasBit orig fs.id = true → scopeRejects fs e = false) :
    scopeStep e orig orig fs = orig := by
  rw [scopeStep_eq]
  cases hbit : hasBit orig fs.id
  · simp
  · rw [h hbit]; simp

theorem foldl_scopeStep_noop (e : Event) (orig : Nat) :
    ∀ (scopes : List FilterScope),
      (∀ fs ∈ scopes, hasBit orig fs.id = true → scopeRejects fs e = false) →
      scopes.foldl (scopeStep e orig) orig = orig
  | [], _ => rfl
  | fs :: l, h => by
    rw [List.foldl_cons, scopeStep_noop e orig fs (h fs (List.mem_cons_self _ _))]
    exact foldl_scopeStep_noop e orig l (fun g hg => h g (List.mem_cons_of_mem _ hg))

theorem computeScopes_subset (scopes : List FilterScope) (e : Event) (b : Nat)
    (h : (computeScopes scopes e).testBit b = true) : e.matchedScopes.testBit b = true :=
  foldl_scopeStep_subset e e.matchedScopes scopes e.matchedScopes b h

theorem computeScopes_testBit (scopes : List FilterScope) (e : Event) (b : Nat) (hb : b < 64)
    (hids : ∀ fs ∈ scopes, fs.id < 64) :
    (computeScopes scopes e).testBit b =
      (e.matchedScopes.testBit b &&
        !(scopes.any fun fs =>
          (hasBit e.matchedScopes fs.id && scopeRejects fs e) && fs.id == b)) :=
  foldl_scopeStep_testBit e e.matchedScopes b hb scopes e.matchedScopes hids

theorem computeScopes_clears (scopes : List FilterScope) (e : Event) (fs : FilterScope)
    (hmem : fs ∈ scopes) (hbit : hasBit e.matchedScopes fs.id = true)
    (hrej : scopeRejects fs e = true) :
    (computeScopes scopes e).testBit fs.id = false :=
  foldl_scopeStep_clears e e.matchedScopes scopes e.matchedScopes fs hmem hbit hrej

theorem scopeRejects_ignores_matchedScopes (fs : FilterScope) (e : Event) (m : Nat)
    (hcf : fs.contextFilter { e with matchedScopes := m } = fs.contextFilter e) :
    scopeRejects fs { e with matchedScopes := m } = scopeRejects fs e := by
  simp only [scopeRejects, hcf]

theorem computeScopes_idem (scopes : List FilterScope) (e : Event)
    (hcf : ∀ fs ∈ scopes, ∀ (m : Nat),
      fs.contextFilter { e with matchedScopes := m } = fs.contextFilter e) :
    computeScopes scopes { e with matchedScopes := computeScopes scopes e } =
      computeScopes scopes e := by
  set m1 := computeScopes scopes e with hm1
  show List.foldl (scopeStep { e with matchedScopes := m1 } m1) m1 scopes = m1
  apply foldl_scopeStep_noop
  intro fs hfs hbit
  have hbitOrig : hasBit e.matchedScopes fs.id = true :=
    computeScopes_subset scopes e fs.id hbit
  have hnoRej : scopeRejects fs e = false := by
    cases hr : scopeRejects fs e
    · rfl
    · have := computeScopes_clears scopes e fs hfs hbitOrig hr
      rw [← hm1] at this
      rw [hasBit] at hbit
      rw [hbit] at this
      exact absurd this (by simp)
  rw [scopeRejects_ignores_matchedScopes fs e m1 (hcf fs hfs m1)]
  exact hnoRej

/-! ## Auxiliary facts about the other stage bodies -/

theorem parseArguments_matchedScopes (cfg : Config) (e : Event) :
    (parseArguments cfg e).1.matchedScopes = e.matchedScopes := by
  unfold parseArguments
  split
  · cases h2 : (cfg.parseArgsFn e.eventID e.args).2
    · simp [h2]
    · simp only [h2]
      split
      · rfl
      · split <;> rfl
  · rfl

theorem decodeArgsFrom_spec : ∀ (n i : Nat) (f : Nat → Option Argument),
    (decodeArgsFrom i n f).1 = (List.range' i n).filterMap f ∧
      (decodeArgsFrom i n f).1.length + (decodeArgsFrom i n f).2 = n
  | 0, i, f => by simp [decodeArgsFrom]
  | n + 1, i, f => by
    have ih1 := (decodeArgsFrom_spec n (i + 1) f).1
    have ih2 := (decodeArgsFrom_spec n (i + 1) f).2
    cases hf : f i with
    | none =>
      constructor
      · simp only [decodeArgsFrom, hf]
        rw [ih1, List.range'_succ, List.filterMap_cons, hf]
      · simp only [decodeArgsFrom, hf]
        omega
    | some a =>
      constructor
      · simp only [decodeArgsFrom, hf]
        rw [List.range'_succ, List.filterMap_cons, hf, ih1]
      · simp only [decodeArgsFrom, hf, List.length_cons]
        omega

theorem readStackLoop_sound : ∀ (bytes : List Nat) (c : Nat),
    c ≤ maxStackDepth → ∀ (l : List Nat), readStackLoop bytes c = some l →
      l.length + c ≤ maxStackDepth ∧ ∀ x ∈ l, x ≠ 0 := by
  intro bytes c
  induction bytes, c using readStackLoop.induct with
  | case1 c =>
    intro hc l h
    simp only [readStackLoop, Option.some.injEq] at h
    subst h
    simpa using hc
  | case2 b0 rest c hle =>
    intro hc l h
    rw [readStackLoop.eq_def] at h
    simp only [if_pos hle] at h
    exact Option.noConfusion h
  | case3 b0 c hle b1 b2 b3 b4 b5 b6 b7 tail w hw =>
    intro hc l h
    have hw2 : le64 [b0, b1, b2, b3, b4, b5, b6, b7] = 0 := hw
    rw [readStackLoop.eq_def] at h
    simp only [if_neg hle, hw2, if_pos, Option.some.injEq] at h
    subst h
    simpa using hc
  | case4 b0 c hle b1 b2 b3 b4 b5 b6 b7 tail w hw hrec ih =>
    intro hc l h
    have hw2 : ¬le64 [b0, b1, b2, b3, b4, b5, b6, b7] = 0 := hw
    rw [readStackLoop.eq_def] at h
    simp only [if_neg hle, if_neg hw2, hrec] at h
    exact Option.noConfusion h
  | case5 b0 c hle b1 b2 b3 b4 b5 b6 b7 tail w hw l0 hrec ih =>
    intro hc l h
    have hw2 : ¬le64 [b0, b1, b2, b3, b4, b5, b6, b7] = 0 := hw
    rw [readStackLoop.eq_def] at h
    simp only [if_neg hle, if_neg hw2, hrec, Option.some.injEq] at h
    subst h
    have hih := ih (by omega) l0 hrec
    constructor
    · simp only [List.length_cons]
      omega
    · intro x hx
      rcases List.mem_cons.mp hx with hx0 | hx1
      · rw [hx0]; exact hw2
      · exact hih.2 x hx1
  | case6 b0 rest c hle hshape =>
    intro hc l h
    rw [readStackLoop.eq_def] at h
    rcases rest with _ | ⟨x1, _ | ⟨x2, _ | ⟨x3, _ | ⟨x4, _ | ⟨x5, _ | ⟨x6, _ | ⟨x7, tail⟩⟩⟩⟩⟩⟩⟩ <;>
      first
        | exact (hshape _ _ _ _ _ _ _ _ rfl).elim
        | (simp only [if_neg hle] at h; exact Option.noConfusion h)

/-! ## Concrete fixtures for the specification's scenarios -/

/-- An all-empty event used as the base of concrete test events. -/
def baseEvent : Event :=
  { timestamp := 0, threadStartTime := 0, processorID := 0, processID := 0, threadID := 0
    parentProcessID := 0, hostProcessID := 0, hostThreadID := 0, hostParentProcessID := 0
    userID := 0, mountNS := 0, pidNS := 0, processName := "", hostName := "", cgroupID := 0
    containerID := "", containerImage := "", containerName := "", podName := "", podNamespace := ""
    podUID := "", podSandbox := false, eventID := 0, eventName := "", matchedScopes := 0
    argsNum := 0, returnValue := 0, args := [], stackAddresses := []
    contextFlags := { containerStarted := false, isCompat := false } }

/-- A scope whose context/return/argument filters accept everything and
whose UID filter is disabled, with a given id and PID filter. -/
def trueScope (i : Nat) (pidf : MinMaxFilter) : FilterScope :=
  { id := i
    contextFilter := fun _ => true
    retFilter := fun _ _ => true
    argFilter := fun _ _ => true
    uidFilter := { enabled := false, min := 0, max := 0 }
    pidFilter := pidf
    containerFilterEnabled := false }

/-- Scenario S1: scope 30 with PID range (502000, 505000). -/
def s1Scope30 : FilterScope := trueScope 30 { enabled := true, min := 502000, max := 505000 }

/-- Scenario S1: scope 59 with PID range (100, 1257738). -/
def s1Scope59 : FilterScope := trueScope 59 { enabled := true, min := 100, max := 1257738 }

/-- Scenario S1: the two configured scopes. -/
def s1Scopes : List FilterScope := [s1Scope30, s1Scope59]

/-- Scenario S1: an event with host pid 150 and kernel-matched bits
{30, 59}. -/
def s1Event : Event := { baseEvent with hostProcessID := 150, matchedScopes := 2 ^ 30 + 2 ^ 59 }

/-- A minimal pipeline configuration for concrete runs: no scopes, rule
engine enabled, emit mask 1 for every event id, every event id known to
the registry and treated as a derivation base, no stack addresses. -/
def baseCfg : Config :=
  { filterScopes := []
    relativeTime := true
    startTime := 0
    bootTime := 0
    stackAddrs := false
    stackTable := fun _ => none
    emit := fun _ => 1
    engineEnabled := true
    parseArgsFlag := false
    parseArgsFDsFlag := false
    parseArgsFn := fun _ a => (a, true)
    parseArgsFDsFn := fun _ a => (a, true)
    isDerivationBase := fun _ => true
    definitions := fun _ => some "evt"
    cgroupInfo := fun _ =>
      { containerId := "", image := "", name := "", podName := "", podNamespace := ""
        podUID := "", podSandbox := false } }

/-- One non-zero little-endian stack word (value 1). -/
def s4word : List Nat := [1, 0, 0, 0, 0, 0, 0, 0]

/-- Scenario S4: 25 non-zero words followed by a zero word. -/
def s4bytes : List Nat := (List.replicate 25 s4word).flatten ++ List.replicate 8 0

/-! ## Claim C2 — stack-address truncation -/

/-- C2 counterexample: on a stack-table value of 25 non-zero words
followed by a zero word, `getStackAddresses` does not return the first
20 addresses: its loop performs the unguarded write
`StackAddresses[20] = 0` and panics (modelled as `none`). -/
theorem claim_C2_counterexample :
    getStackAddresses (fun _ => some s4bytes) 0 = none := by decide

/-- C2 (amended): whenever `getStackAddresses` returns normally, the
result has at most 20 addresses and no zero element; a full 20-word
non-zero table value yields exactly the 20 addresses, and reading stops
at the first zero word.  (As stated the claim fails: more than 20
non-zero words make the loop panic instead of truncating.) -/
theorem claim_C2 :
    (∀ (table : Nat → Option (List Nat)) (sid : Nat) (l : List Nat),
        getStackAddresses table sid = some l →
        l.length ≤ maxStackDepth ∧ ∀ x ∈ l, x ≠ 0) ∧
    getStackAddresses (fun _ => some (List.replicate 20 s4word).flatten) 0 =
      some (List.replicate 20 1) ∧
    getStackAddresses (fun _ => some (s4word ++ List.replicate 8 0 ++ s4word)) 0 = some [1] := by
  refine ⟨?_, by decide, by decide⟩
  intro table sid l h
  unfold getStackAddresses at h
  split at h
  · simp only [Option.some.injEq] at h
    subst h
    simp [maxStackDepth]
  · have hs := readStackLoop_sound _ 0 (by simp [maxStackDepth]) l h
    exact ⟨by omega, hs.2⟩

/-- C2 witness: the amended theorem applied to a concrete two-word
table value. -/
theorem claim_C2_witness :
    ([1] : List Nat).length ≤ maxStackDepth ∧ ∀ x ∈ ([1] : List Nat), x ≠ 0 :=
  claim_C2.1 (fun _ => some (s4word ++ List.replicate 8 0 ++ s4word)) 0 [1] (by decide)

/-! ## Claim C3 — MatchedScopes only shrinks -/

/-- C3: every pipeline operation on `MatchedScopes` only clears bits:
`computeScopes`, the container-filter correction of the processor stage,
and the sink's emit-mask each produce a bitmap whose set bits are a
subset of the incoming event's. -/
theorem claim_C3 :
    (∀ (scopes : List FilterScope) (e : Event) (b : Nat),
        (computeScopes scopes e).testBit b = true → e.matchedScopes.testBit b = true) ∧
    (∀ (cfg : Config) (e e2 : Event), processEventStage cfg e = some e2 →
        ∀ b, e2.matchedScopes.testBit b = true → e.matchedScopes.testBit b = true) ∧
    (∀ (cfg : Config) (e e2 : Event), (sinkOne cfg e).sent = some e2 →
        ∀ b, e2.matchedScopes.testBit b = true → e.matchedScopes.testBit b = true) := by
  refine ⟨computeScopes_subset, ?_, ?_⟩
  · intro cfg e e2 h b hb
    simp only [processEventStage] at h
    split at h
    · split at h
      · split at h
        · exact Option.noConfusion h
        · simp only [Option.some.injEq] at h
          subst h
          exact clearBits_subset _ _ _ hb
      · simp only [Option.some.injEq] at h
        subst h
        exact hb
    · simp only [Option.some.injEq] at h
      subst h
      exact hb
  · intro cfg e e2 h b hb
    simp only [sinkOne] at h
    split at h
    · exact Option.noConfusion h
    · split at h
      · simp only [Option.some.injEq] at h
        subst h
        exact and_subset _ _ _ hb
      · simp only [Option.some.injEq] at h
        subst h
        rw [parseArguments_matchedScopes] at hb
        exact and_subset _ _ _ hb

/-- C3 witness: the three subset statements applied at concrete
events. -/
theorem claim_C3_witness :
    s1Event.matchedScopes.testBit 59 = true ∧
    ({ baseEvent with matchedScopes := 1 } : Event).matchedScopes.testBit 0 = true ∧
    ({ baseEvent with matchedScopes := 3 } : Event).matchedScopes.testBit 0 = true :=
  ⟨claim_C3.1 s1Scopes s1Event 59 (by decide),
   claim_C3.2.1 baseCfg { baseEvent with matchedScopes := 1 }
     { baseEvent with matchedScopes := 1 } (by decide) 0 (by decide),
   claim_C3.2.2 baseCfg { baseEvent with matchedScopes := 3 }
     { baseEvent with matchedScopes := 1 } (by decide) 0 (by decide)⟩

/-! ## Claim C4 — the scope-refinement predicate and scenario S1 -/

/-- C4: for a configured scope with a kernel-set bit (scope ids being
distinct and below 64), `computeScopes` clears the bit exactly when one
of the five filters rejects; `shouldProcessEvent` stores the result and
drops exactly on zero; and in scenario S1 an event with host pid 150 and
kernel bits {30, 59} ends with `MatchedScopes = {59}`. -/
theorem claim_C4 :
    (∀ (scopes : List FilterScope) (e : Event) (fs : FilterScope),
        fs ∈ scopes → (scopes.map FilterScope.id).Nodup → (∀ g ∈ scopes, g.id < 64) →
        hasBit e.matchedScopes fs.id = true →
        ((computeScopes scopes e).testBit fs.id = false ↔ scopeRejects fs e = true)) ∧
    (∀ (scopes : List FilterScope) (e : Event),
        (shouldProcessEvent scopes e).1.matchedScopes = computeScopes scopes e ∧
        ((shouldProcessEvent scopes e).2 = false ↔ computeScopes scopes e = 0)) ∧
    computeScopes s1Scopes s1Event = 2 ^ 59 := by
  refine ⟨?_, ?_, by decide⟩
  · intro scopes e fs hmem hnodup hids hbit
    rw [computeScopes_testBit scopes e fs.id (hids fs hmem) hids]
    rw [hasBit] at hbit
    rw [hbit, Bool.true_and]
    constructor
    · intro h
      have hany : (scopes.any fun g =>
          (hasBit e.matchedScopes g.id && scopeRejects g e) && g.id == fs.id) = true := by
        cases hx : (scopes.any fun g =>
            (hasBit e.matchedScopes g.id && scopeRejects g e) && g.id == fs.id)
        · rw [hx] at h
          exact absurd h (by simp)
        · rfl
      obtain ⟨g, hg, hgp⟩ := List.any_eq_true.mp hany
      rw [Bool.and_eq_true, Bool.and_eq_true] at hgp
      have hgid : g.id = fs.id := by simpa using hgp.2
      have hgfs : g = fs := List.inj_on_of_nodup_map hnodup hg hmem hgid
      rw [← hgfs]
      exact hgp.1.2
    · intro hrej
      have hany : (scopes.any fun g =>
          (hasBit e.matchedScopes g.id && scopeRejects g e) && g.id == fs.id) = true :=
        List.any_eq_true.mpr ⟨fs, hmem, by rw [hasBit, hbit, hrej]; simp⟩
      rw [hany]
      simp
  · intro scopes e
    refine ⟨rfl, ?_⟩
    simp [shouldProcessEvent]

/-- C4 witness: in scenario S1, bit 30 is cleared because scope 30's PID
filter rejects host pid 150, and the final bitmap is exactly {59}. -/
theorem claim_C4_witness :
    (computeScopes s1Scopes s1Event).testBit 30 = false ∧
    computeScopes s1Scopes s1Event = 2 ^ 59 :=
  ⟨(claim_C4.1 s1Scopes s1Event s1Scope30 (List.mem_cons_self _ _) (by decide) (by decide)
      (by decide)).mpr (by decide),
   claim_C4.2.2⟩

/-! ## Claim C5 — idempotence of shouldProcessEvent -/

/-- C5: `shouldProcessEvent` is idempotent on its own output: applying
it to the event it produced yields the same event and the same boolean
(the context filters are structural predicates that do not read
`MatchedScopes`, which is the hypothesis `hcf`). -/
theorem claim_C5 (scopes : List FilterScope) (e : Event)
    (hcf : ∀ fs ∈ scopes, ∀ (m : Nat),
      fs.contextFilter { e with matchedScopes := m } = fs.contextFilter e) :
    shouldProcessEvent scopes (shouldProcessEvent scopes e).1 = shouldProcessEvent scopes e := by
  have key := computeScopes_idem scopes e hcf
  simp only [shouldProcessEvent, key]

/-- C5 witness: idempotence at the concrete S1 configuration and
event. -/
theorem claim_C5_witness :
    shouldProcessEvent s1Scopes (shouldProcessEvent s1Scopes s1Event).1 =
      shouldProcessEvent s1Scopes s1Event :=
  claim_C5 s1Scopes s1Event (by intro fs hfs m; fin_cases hfs <;> rfl)

/-! ## Claim C10 — shouldProcessEvent modifies only MatchedScopes -/

/-- C10: `shouldProcessEvent` (and `computeScopes`, which it calls)
changes only the `MatchedScopes` field: every other field of the event
it returns equals the corresponding input field. -/
theorem claim_C10 (scopes : List FilterScope) (e : Event) :
    (shouldProcessEvent scopes e).1.timestamp = e.timestamp ∧
    (shouldProcessEvent scopes e).1.threadStartTime = e.threadStartTime ∧
    (shouldProcessEvent scopes e).1.processorID = e.processorID ∧
    (shouldProcessEvent scopes e).1.processID = e.processID ∧
    (shouldProcessEvent scopes e).1.threadID = e.threadID ∧
    (shouldProcessEvent scopes e).1.parentProcessID = e.parentProcessID ∧
    (shouldProcessEvent scopes e).1.hostProcessID = e.hostProcessID ∧
    (shouldProcessEvent scopes e).1.hostThreadID = e.hostThreadID ∧
    (shouldProcessEvent scopes e).1.hostParentProcessID = e.hostParentProcessID ∧
    (shouldProcessEvent scopes e).1.userID = e.userID ∧
    (shouldProcessEvent scopes e).1.mountNS = e.mountNS ∧
    (shouldProcessEvent scopes e).1.pidNS = e.pidNS ∧
    (shouldProcessEvent scopes e).1.processName = e.processName ∧
    (shouldProcessEvent scopes e).1.hostName = e.hostName ∧
    (shouldProcessEvent scopes e).1.cgroupID = e.cgroupID ∧
    (shouldProcessEvent scopes e).1.containerID = e.containerID ∧
    (shouldProcessEvent scopes e).1.containerImage = e.containerImage ∧
    (shouldProcessEvent scopes e).1.containerName = e.containerName ∧
    (shouldProcessEvent scopes e).1.podName = e.podName ∧
    (shouldProcessEvent scopes e).1.podNamespace = e.podNamespace ∧
    (shouldProcessEvent scopes e).1.podUID = e.podUID ∧
    (shouldProcessEvent scopes e).1.podSandbox = e.podSandbox ∧
    (shouldProcessEvent scopes e).1.eventID = e.eventID ∧
    (shouldProcessEvent scopes e).1.eventName = e.eventName ∧
    (shouldProcessEvent scopes e).1.argsNum = e.argsNum ∧
    (shouldProcessEvent scopes e).1.returnValue = e.returnValue ∧
    (shouldProcessEvent scopes e).1.args = e.args ∧
    (shouldProcessEvent scopes e).1.stackAddresses = e.stackAddresses ∧
    (shouldProcessEvent scopes e).1.contextFlags = e.contextFlags :=
  ⟨rfl, rfl, rfl, rfl, rfl, rfl, rfl, rfl, rfl, rfl, rfl, rfl, rfl, rfl, rfl, rfl, rfl, rfl,
   rfl, rfl, rfl, rfl, rfl, rfl, rfl, rfl, rfl, rfl, rfl⟩

/-! ## Claim C6 — timestamp normalization -/

/-- An all-zero record header used as the base of concrete contexts. -/
def zeroCtx : BinContext :=
  { ts := 0, startTime := 0, cgroupID := 0, pid := 0, tid := 0, ppid := 0, hostPid := 0
    hostTid := 0, hostPpid := 0, uid := 0, mntID := 0, pidID := 0, comm := "", utsName := ""
    flags := 0, eventID := 0, matchedScopes := 1, argnum := 0, retval := 0, stackID := 0
    processorId := 0 }

/-- Scenario S5: a record with raw `Ts = 1500`. -/
def s5Ctx : BinContext := { zeroCtx with ts := 1500 }

/-- Scenario S5, relative mode: startEpoch 1000. -/
def s5CfgRel : Config := { baseCfg with relativeTime := true, startTime := 1000 }

/-- Scenario S5, absolute mode: bootTime 10^9. -/
def s5CfgAbs : Config := { baseCfg with relativeTime := false, bootTime := 10 ^ 9 }

/-- C6: the decoder applies exactly one of the two timestamp modes to
both `Ts` and `StartTime`: relative mode subtracts the start epoch from
both, absolute mode adds the boot offset to both (`uint64` arithmetic);
on scenario S5 the decoded event's `Timestamp` is 500 in relative mode
and 10^9 + 1500 in absolute mode. -/
theorem claim_C6 :
    (∀ s b t st, normalizeTimestamps true s b t st = (u64sub t s, u64sub st s)) ∧
    (∀ s b t st, normalizeTimestamps false s b t st = (u64add t b, u64add st b)) ∧
    (normalizeTimestamps true 1000 0 1500 1200).1 = 500 ∧
    (normalizeTimestamps false 0 (10 ^ 9) 1500 1200).1 = 10 ^ 9 + 1500 ∧
    Option.map (fun p => Option.map Event.timestamp p.1)
      (decodeRecord s5CfgRel s5Ctx (fun _ => none)) = some (some 500) ∧
    Option.map (fun p => Option.map Event.timestamp p.1)
      (decodeRecord s5CfgAbs s5Ctx (fun _ => none)) = some (some (10 ^ 9 + 1500)) :=
  ⟨fun _ _ _ _ => rfl, fun _ _ _ _ => rfl, by decide, by decide, by decide, by decide⟩

/-! ## Claim C7 — the false-positive container filter -/

/-- Scenario S2: scope 7 with a container filter enabled. -/
def s2Scope : FilterScope :=
  { trueScope 7 { enabled := false, min := 0, max := 0 } with containerFilterEnabled := true }

/-- Scenario S2: a configuration whose only scope is `s2Scope`. -/
def s2Cfg : Config := { baseCfg with filterScopes := [s2Scope] }

/-- Scenario S2: a non-cgroup event with empty ContainerID and bits
{3, 7}. -/
def s2Event : Event := { baseEvent with eventID := 42, matchedScopes := 2 ^ 7 + 2 ^ 3 }

/-- A cgroup_mkdir event with empty ContainerID and bit 7 only. -/
def s2EventCg : Event := { baseEvent with eventID := cgroupMkdirID, matchedScopes := 2 ^ 7 }

/-- C7: with a container filter configured and an empty `ContainerID`,
a non-cgroup-lifecycle event has every container-filter scope bit
cleared and is dropped exactly when the bitmap becomes zero, while
`cgroup_mkdir` / `cgroup_rmdir` events are forwarded unchanged. -/
theorem claim_C7 (cfg : Config) (e : Event)
    (hmask : 0 < containerFilterMask cfg.filterScopes) (hcid : e.containerID = "") :
    (e.eventID ≠ cgroupMkdirID → e.eventID ≠ cgroupRmdirID →
      ((processEventStage cfg e = none ↔
          clearBits e.matchedScopes (containerFilterMask cfg.filterScopes) = 0) ∧
        (∀ e2, processEventStage cfg e = some e2 →
          e2.matchedScopes = clearBits e.matchedScopes (containerFilterMask cfg.filterScopes) ∧
          ∀ b, b < 64 → (containerFilterMask cfg.filterScopes).testBit b = true →
            e2.matchedScopes.testBit b = false))) ∧
    ((e.eventID = cgroupMkdirID ∨ e.eventID = cgroupRmdirID) →
      processEventStage cfg e = some e) := by
  constructor
  · intro h1 h2
    simp only [processEventStage]
    rw [if_pos (And.intro hmask hcid), if_pos (And.intro h1 h2)]
    constructor
    · by_cases h0 : clearBits e.matchedScopes (containerFilterMask cfg.filterScopes) = 0
      · simp [h0]
      · simp [h0]
    · intro e2 he2
      by_cases h0 : clearBits e.matchedScopes (containerFilterMask cfg.filterScopes) = 0
      · rw [if_pos h0] at he2
        exact Option.noConfusion he2
      · rw [if_neg h0] at he2
        simp only [Option.some.injEq] at he2
        subst he2
        refine ⟨rfl, ?_⟩
        intro b hb hmb
        rw [clearBits_testBit e.matchedScopes _ b hb, hmb]
        simp
  · intro hor
    have hne : ¬(e.eventID ≠ cgroupMkdirID ∧ e.eventID ≠ cgroupRmdirID) := by
      rcases hor with h | h
      · exact fun hc => hc.1 h
      · exact fun hc => hc.2 h
    simp only [processEventStage]
    rw [if_pos (And.intro hmask hcid), if_neg hne]

/-- C7 witness: in scenario S2 the drop condition matches the cleared
bitmap (bit 7 cleared, bit 3 survives), and a cgroup_mkdir event passes
unchanged. -/
theorem claim_C7_witness :
    (processEventStage s2Cfg s2Event = none ↔
      clearBits s2Event.matchedScopes (containerFilterMask s2Cfg.filterScopes) = 0) ∧
    processEventStage s2Cfg s2EventCg = some s2EventCg :=
  ⟨((claim_C7 s2Cfg s2Event (by decide) rfl).1 (by decide) (by decide)).1,
   (claim_C7 s2Cfg s2EventCg (by decide) rfl).2 (Or.inl rfl)⟩

/-! ## Claim C8 — derivation exemption -/

/-- Scenario S3: a `symbols_loaded` derivative whose filters would
reject it (no kernel-matched bits at all). -/
def s3Exempt : Event := { baseEvent with eventID := symbolsLoadedID, matchedScopes := 0 }

/-- A non-exempt derivative that the filters reject. -/
def s3Rejected : Event := { baseEvent with eventID := 42, matchedScopes := 0 }

/-- C8: in the deriver, a derivative with one of the three exempt event
ids is emitted unchanged without re-filtering; any other derivative is
emitted exactly when `shouldProcessEvent` accepts it, and a rejected one
is dropped with `EventsFiltered` incremented. -/
theorem claim_C8 (cfg : Config) (d : Event) :
    ((d.eventID = symbolsLoadedID ∨ d.eventID = sharedObjectLoadedID ∨
        d.eventID = printMemDumpID) →
      processDerivative cfg d = (some d, 0)) ∧
    (¬(d.eventID = symbolsLoadedID ∨ d.eventID = sharedObjectLoadedID ∨
        d.eventID = printMemDumpID) →
      ((shouldProcessEvent cfg.filterScopes d).2 = true →
        processDerivative cfg d = (some (shouldProcessEvent cfg.filterScopes d).1, 0)) ∧
      ((shouldProcessEvent cfg.filterScopes d).2 = false →
        processDerivative cfg d = (none, 1))) := by
  constructor
  · intro h
    simp only [processDerivative, if_pos h]
  · intro h
    constructor
    · intro hk
      simp only [processDerivative, if_neg h, hk, if_pos]
    · intro hk
      simp only [processDerivative, if_neg h, hk]
      simp

/-- C8 witness: scenario S3 — the rejected `symbols_loaded` derivative
is still emitted, while the same event under a non-exempt id is dropped
with `EventsFiltered` incremented. -/
theorem claim_C8_witness :
    processDerivative baseCfg s3Exempt = (some s3Exempt, 0) ∧
    processDerivative baseCfg s3Rejected = (none, 1) :=
  ⟨(claim_C8 baseCfg s3Exempt).1 (Or.inl rfl),
   ((claim_C8 baseCfg s3Rejected).2 (by decide)).2 (by decide)⟩

/-! ## Claim C9 — the sink stage -/

/-- C9: the sink masks `MatchedScopes` with the per-event-id emit mask;
a zero result drops the event without counting it and without parsing;
a surviving event is sent with `EventCount` incremented by one, its
bitmap equal to the mask result, and `parseArguments` invoked exactly
when the rule engine is disabled. -/
theorem claim_C9 (cfg : Config) (e : Event) :
    ((sinkOne cfg e).sent = none ↔ e.matchedScopes &&& cfg.emit e.eventID = 0) ∧
    ((sinkOne cfg e).sent = none →
      (sinkOne cfg e).eventCountDelta = 0 ∧ (sinkOne cfg e).parseCalled = false) ∧
    (∀ e2, (sinkOne cfg e).sent = some e2 →
      e2.matchedScopes = e.matchedScopes &&& cfg.emit e.eventID ∧
      (sinkOne cfg e).eventCountDelta = 1 ∧
      (sinkOne cfg e).parseCalled = !cfg.engineEnabled) := by
  by_cases h0 : e.matchedScopes &&& cfg.emit e.eventID = 0
  · have hs : sinkOne cfg e = ⟨none, false, 0, 0⟩ := by
      simp only [sinkOne]
      rw [if_pos h0]
    refine ⟨by simp [hs, h0], by simp [hs], ?_⟩
    intro e2 he2
    rw [hs] at he2
    exact Option.noConfusion he2
  · cases heng : cfg.engineEnabled
    · have hs : sinkOne cfg e =
          ⟨some (parseArguments cfg
              { e with matchedScopes := e.matchedScopes &&& cfg.emit e.eventID }).1,
            true, 1,
            if (parseArguments cfg
                { e with matchedScopes := e.matchedScopes &&& cfg.emit e.eventID }).2 = true
              then 0 else 1⟩ := by
        simp only [sinkOne]
        rw [if_neg h0, if_neg (by simp [heng])]
      refine ⟨by simp [hs, h0], by simp [hs], ?_⟩
      intro e2 he2
      rw [hs] at he2
      simp only [Option.some.injEq] at he2
      subst he2
      exact ⟨parseArguments_matchedScopes cfg _, by simp [hs], by simp [hs, heng]⟩
    · have hs : sinkOne cfg e =
          ⟨some { e with matchedScopes := e.matchedScopes &&& cfg.emit e.eventID },
            false, 1, 0⟩ := by
        simp only [sinkOne]
        rw [if_neg h0, if_pos heng]
      refine ⟨by simp [hs, h0], by simp [hs], ?_⟩
      intro e2 he2
      rw [hs] at he2
      simp only [Option.some.injEq] at he2
      subst he2
      exact ⟨rfl, by simp [hs], by simp [hs, heng]⟩

/-- C9 witness: with emit mask 1, an event with bitmap 2 is dropped,
and an event with bitmap 1 is sent once with the masked bitmap and no
argument parsing (engine enabled). -/
theorem claim_C9_witness :
    (sinkOne baseCfg { baseEvent with matchedScopes := 2 }).sent = none ∧
    (({ baseEvent with matchedScopes := 1 } : Event).matchedScopes =
        ({ baseEvent with matchedScopes := 1 } : Event).matchedScopes &&&
          baseCfg.emit ({ baseEvent with matchedScopes := 1 } : Event).eventID ∧
      (sinkOne baseCfg { baseEvent with matchedScopes := 1 }).eventCountDelta = 1 ∧
      (sinkOne baseCfg { baseEvent with matchedScopes := 1 }).parseCalled =
        !baseCfg.engineEnabled) :=
  ⟨(claim_C9 baseCfg _).1.mpr (by decide),
   (claim_C9 baseCfg _).2.2 _ (by decide)⟩

/-! ## Claim C1 — argument-decode failures in the decoder -/

/-- A decode context with one argument. -/
def c1Ctx : BinContext := { zeroCtx with argnum := 1 }

/-- C1 counterexample: a record whose single argument fails to decode is
NOT dropped: the decoder emits the event anyway (with `ErrorCount`
incremented by 1), and the emitted event has `len(Args) = 0` while
`Argnum = 1`. -/
theorem claim_C1_counterexample :
    Option.map (fun p => (Option.map (fun e => (e.args.length, e.argsNum)) p.1, p.2.1))
      (decodeRecord baseCfg c1Ctx (fun _ => none)) = some (some (0, 1), 1) := by decide

/-- C1 (amended): an argument-decode failure does not drop the event;
the failing argument is skipped (one `ErrorCount` increment per
failure) and decoding continues with the next argument, so an emitted
event carries exactly the successfully decoded arguments:
`len(Args) + failures = Argnum` (with `ArgsNum` still `Argnum`), rather
than the claimed `len(Args) = Argnum`. -/
theorem claim_C1 (cfg : Config) (ctx : BinContext) (readArg : Nat → Option Argument)
    (e : Event) (errs filtered : Nat)
    (h : decodeRecord cfg ctx readArg = some (some e, errs, filtered)) :
    e.args = (List.range ctx.argnum).filterMap readArg ∧
    e.args.length + errs = ctx.argnum ∧
    e.argsNum = ctx.argnum := by
  have hargs := (decodeArgsFrom_spec ctx.argnum 0 readArg).1
  have hlen := (decodeArgsFrom_spec ctx.argnum 0 readArg).2
  rw [← List.range_eq_range'] at hargs
  simp only [decodeRecord] at h
  split at h
  · simp at h
  · split at h
    · exact Option.noConfusion h
    · split at h
      · simp only [Option.some.injEq, Prod.mk.injEq] at h
        obtain ⟨he, herrs, _⟩ := h
        subst he
        subst herrs
        exact ⟨hargs, hlen, rfl⟩
      · split at h
        · simp only [Option.some.injEq, Prod.mk.injEq] at h
          obtain ⟨he, herrs, _⟩ := h
          subst he
          subst herrs
          exact ⟨hargs, hlen, rfl⟩
        · simp at h

/-- The argument produced by the successful second read. -/
def c1Arg : Argument := { argName := "a", argType := "t", value := 7 }

/-- A decode context with two arguments. -/
def c1Ctx2 : BinContext := { zeroCtx with argnum := 2 }

/-- A reader whose first argument fails and whose second succeeds. -/
def c1Reader : Nat → Option Argument := fun i => if i = 0 then none else some c1Arg

/-- The event the decoder emits for `c1Ctx2` under `c1Reader`. -/
def c1Emitted : Event :=
  { baseEvent with eventName := "evt", matchedScopes := 1, argsNum := 2, args := [c1Arg] }

/-- C1 witness: the amended theorem at a concrete record with one
failing and one succeeding argument. -/
theorem claim_C1_witness :
    c1Emitted.args = (List.range c1Ctx2.argnum).filterMap c1Reader ∧
    c1Emitted.args.length + 1 = c1Ctx2.argnum ∧
    c1Emitted.argsNum = c1Ctx2.argnum :=
  claim_C1 baseCfg c1Ctx2 c1Reader c1Emitted 1 0 (by decide)

end Tracee
